/-
  Verification of the code-execution sandbox and runner protocol of the
  Precomputed lesson player.

  Shallow embedding of:
  - the grading comparison in `CodeQuizElement` (src/src/App.tsx),
  - the Python worker (ensurePyodide / disableNetwork / ensureTrailingNewline /
    sanitizePythonError / toFriendlyMessage, appended to src/src/App.tsx),
  - the C worker (src/workers/cWorker.js) and the C# worker,
  - the worker-backed Runner facade (createWorkerRunner) and the remote
    Paiza-API runner (createPaizaRunner) from src/unnamed/part_004 and
    src/unnamed/part_005,
  - the DesiredOutput grading-rule union, which the repository's README.md and
    lessons/LessonGuidelines.md declare but whose implementing code is not in
    this source snapshot; it is modelled from the specification where needed.

  Strings are modelled as Lean `String`; JavaScript time (`Date.now()`) as
  `Int` milliseconds; worker messages and run updates as inductive types.
-/
import Mathlib

/-! ## Run updates and worker messages (§3 DATA MODEL, part_004 / part_005) -/

/-- `RunUpdate` from part_004/part_005: tagged variant
`{stdout} | {stderr} | {error} | {done} | {ready}`. -/
inductive Upd where
  | stdout (data : String)
  | stderr (data : String)
  | error (message : String)
  | done
  | ready
deriving Repr, DecidableEq

/-- Messages a worker posts to the host (context → host protocol, §6):
`ready` (the C/C# workers attach a `degraded` flag, the Python worker does
not), `init-error`, `stdout`, `stderr`, `error`, `done`.  Payload strings are
`Option String` so that an absent (JS `undefined`) field is representable. -/
inductive WMsg where
  | ready (degraded : Option Bool)
  | initError (message : Option String)
  | stdout (data : String)
  | stderr (data : String)
  | error (message : Option String)
  | done
deriving Repr, DecidableEq

/-- JS `a || b` for an optional string `a`: the default is used when the field
is absent (`none`) or falsy (the empty string). -/
def jsOr (o : Option String) (d : String) : String :=
  match o with
  | none => d
  | some s => if s = "" then d else s

/-- Terminal updates: `error` or `done`. -/
def isTerminalUpd : Upd → Bool
  | Upd.error _ => true
  | Upd.done => true
  | _ => false

def isErrorUpd : Upd → Bool
  | Upd.error _ => true
  | _ => false

def isDoneUpd : Upd → Bool
  | Upd.done => true
  | _ => false

/-! ## Character utilities shared by the embedded string functions -/

/-- The character class matched by JavaScript's `\s` and stripped by
`String.prototype.trimEnd` / `trim`: ECMAScript WhiteSpace and
LineTerminator code points. -/
def isJsWhite (c : Char) : Bool :=
  c = ' ' || c = '\t' || c = '\n' || c = '\x0b' || c = '\x0c' || c = '\r' ||
  c = '\u00A0' || c = '\u1680' ||
  ('\u2000' ≤ c && c ≤ '\u200A') ||
  c = '\u2028' || c = '\u2029' || c = '\u202F' || c = '\u205F' ||
  c = '\u3000' || c = '\uFEFF'

/-- JS `str.trimEnd()` on a character list. -/
def trimEndChars (l : List Char) : List Char :=
  (l.reverse.dropWhile isJsWhite).reverse

/-- JS `str.trim()` on a character list. -/
def trimChars (l : List Char) : List Char :=
  trimEndChars (l.dropWhile isJsWhite)

/-- JS `str.startsWith`-style check on character lists. -/
def startsWithChars : List Char → List Char → Bool
  | _, [] => true
  | [], _ :: _ => false
  | c :: cs, p :: ps => c == p && startsWithChars cs ps

/-- Substring containment (JS `regex.test` for a literal pattern /
`String.prototype.includes`). -/
def containsSub : List Char → List Char → Bool
  | [], pat => pat.isEmpty
  | hay@(_ :: rest), pat => startsWithChars hay pat || containsSub rest pat

/-- JS `toLowerCase` (ASCII range, which is all the embedded patterns use). -/
def lowerChars (l : List Char) : List Char :=
  l.map Char.toLower

/-! ## Grading comparison of `CodeQuizElement` (src/src/App.tsx lines 90–98) -/

/-- `replace(/\r\n/g, '\n')`: collapse each CRLF pair to LF. -/
def replaceCrlf : List Char → List Char
  | [] => []
  | '\r' :: '\n' :: rest => '\n' :: replaceCrlf rest
  | c :: rest => c :: replaceCrlf rest

/-- `replace(/\r/g, '\n')`: remaining lone CRs to LF. -/
def crToLf (c : Char) : Char :=
  if c = '\r' then '\n' else c

/-- The normalizer in `CodeQuizElement.onRunComplete` (named `norm` in the
source; renamed here because `norm` collides with Mathlib's norm):
`(s ?? '').replace(/\r\n/g, '\n').replace(/\r/g, '\n').trimEnd()`. -/
def normText (s : String) : String :=
  ⟨trimEndChars ((replaceCrlf s.data).map crToLf)⟩

/-- JS truthiness of the `error` value handed to `onRunComplete`
(`string | null`): `null`/absent and the empty string are falsy. -/
def errTruthy (err : Option String) : Bool :=
  match err with
  | none => false
  | some s => s ≠ ""

/-- The pass verdict computed in `CodeQuizElement.onRunComplete`:
`const ok = !error && norm(output) === norm(desired)`. -/
def gradeCodeQuiz (desired output : String) (err : Option String) : Bool :=
  !errTruthy err && normText output == normText desired

/-! ## `ensureTrailingNewline` (cWorker.js lines 35–42, and the identical
copies in the Python and C# workers) -/

/-- JS `str.endsWith('\n')`. -/
def endsWithNewline (s : String) : Bool :=
  s.data.getLast? = some '\n'

/-- `ensureTrailingNewline(s)`: return `s` unchanged when it already ends with
a newline, otherwise append exactly one newline.  (The JS `String(s ?? '')`
coercion is the identity on the strings modelled here; the catch-all branch
returning `'\n'` is unreachable for string input.) -/
def ensureTrailingNewline (s : String) : String :=
  if endsWithNewline s then s else s ++ "\n"

/-! ## Network-capable globals of an execution context (§4.2)

A worker context exposes four network primitives (`self.fetch`,
`self.XMLHttpRequest`, `self.WebSocket`, `self.EventSource`).  `disableNetwork`
replaces them with functions that throw; invoking a primitive is modelled by
`invokeNet`, which returns the thrown message for a blocked primitive. -/

/-- A network-capable global: still the native implementation, or overridden
by a blocker that synchronously throws the recorded message. -/
inductive NetPrim where
  | native
  | blocked (msg : String)
deriving Repr, DecidableEq

structure NetGlobals where
  fetchG : NetPrim
  xhrG : NetPrim
  webSocketG : NetPrim
  eventSourceG : NetPrim
deriving Repr, DecidableEq

/-- A fresh worker context: every network global is still native. -/
def nativeNet : NetGlobals :=
  ⟨NetPrim.native, NetPrim.native, NetPrim.native, NetPrim.native⟩

/-- Invoking a network primitive from executed user code: the native
implementation proceeds, a blocker throws its message synchronously. -/
def invokeNet : NetPrim → Except String Unit
  | NetPrim.native => Except.ok ()
  | NetPrim.blocked m => Except.error m

/-- `disableNetwork()` of the Python worker (and the identical function in the
C# worker): guarded by the `isNetworkDisabled` flag; overrides `fetch` with a
blocker throwing `'Network access is disabled in the code interpreter'` and
`XMLHttpRequest`/`WebSocket`/`EventSource` with blockers throwing
`'Network access disabled'`.  Takes and returns the flag with the globals. -/
def pyDisableNetwork (st : Bool × NetGlobals) : Bool × NetGlobals :=
  if st.1 then st
  else
    (true,
      ⟨NetPrim.blocked "Network access is disabled in the code interpreter",
       NetPrim.blocked "Network access disabled",
       NetPrim.blocked "Network access disabled",
       NetPrim.blocked "Network access disabled"⟩)

/-- `disableNetwork()` of the C worker (cWorker.js lines 22–33).  Its first
statement is `return;` (commented `will add back in later once other issues
are fixed`), so the flag and the globals are returned unchanged and no
network global is ever overridden in the C worker. -/
def cDisableNetwork (st : Bool × NetGlobals) : Bool × NetGlobals :=
  st

/-! ## The Python worker (appended to src/src/App.tsx) -/

/-- Module state of the Python worker: whether `pyodideReady` has been
assigned (the load was started), whether that cached promise resolved
(`loadOutcome = true`) or rejected, the `isNetworkDisabled` flag, and the
network globals of the context. -/
structure PyWorker where
  loadStarted : Bool
  loadOutcome : Bool
  netDisabled : Bool
  net : NetGlobals
deriving Repr, DecidableEq

/-- A freshly created Python worker. -/
def pyWorker0 : PyWorker :=
  ⟨false, false, false, nativeNet⟩

/-- `ensurePyodide()`: when `pyodideReady` is already set, await the cached
promise (posting nothing, and rethrowing its recorded failure); otherwise
load Pyodide — on success install the output hooks, run `disableNetwork()`,
post `ready`, and cache success; on failure post `init-error` with the load
error's message and cache the rejection.  `loadOk`/`loadErrMsg` describe what
the environment's load attempt would do.  Returns
(posted messages, new state, whether the await threw). -/
def ensurePyodide (st : PyWorker) (loadOk : Bool) (loadErrMsg : String) :
    List WMsg × PyWorker × Bool :=
  if st.loadStarted then
    ([], st, !st.loadOutcome)
  else if loadOk then
    let (flag, net) := pyDisableNetwork (st.netDisabled, st.net)
    ([WMsg.ready none],
      { loadStarted := true, loadOutcome := true, netDisabled := flag, net := net },
      false)
  else
    ([WMsg.initError (some loadErrMsg)],
      { st with loadStarted := true, loadOutcome := false },
      true)

/-- The Python worker's `onmessage` handler for `{type:'warmup'}`:
`await ensurePyodide()` then `disableNetwork()` again; a failure of
`ensurePyodide` is caught and a second `init-error` is posted. -/
def pyWarmup (st : PyWorker) (loadOk : Bool) (loadErrMsg : String) :
    List WMsg × PyWorker :=
  let (posts, st1, threw) := ensurePyodide st loadOk loadErrMsg
  if threw then
    (posts ++ [WMsg.initError (some loadErrMsg)], st1)
  else
    let (flag, net) := pyDisableNetwork (st1.netDisabled, st1.net)
    (posts, { st1 with netDisabled := flag, net := net })

/-! ## The C worker (src/workers/cWorker.js) and the C# worker -/

/-- Module state of the C worker: the cached `backend`, the `degradedMode`
and `readyPosted` flags, the (never set) `isNetworkDisabled` flag and the
context's network globals.  The C# worker has the same shape. -/
structure CWorker where
  backendLoaded : Bool
  degraded : Bool
  readyPosted : Bool
  netDisabled : Bool
  net : NetGlobals
deriving Repr, DecidableEq

/-- A freshly created C (or C#) worker. -/
def cWorker0 : CWorker :=
  ⟨false, false, false, false, nativeNet⟩

/-- The C worker's `onmessage` handler for `{type:'warmup'}`: try
`loadBackend()` (cached when already loaded; on failure enter degraded mode),
then `disableNetwork()` (a no-op, see `cDisableNetwork`), then post
`{type:'ready', degraded}` only if `readyPosted` is still false. -/
def cWarmup (st : CWorker) (loadOk : Bool) : List WMsg × CWorker :=
  let st1 :=
    if st.backendLoaded then st
    else if loadOk then { st with backendLoaded := true }
    else { st with degraded := true }
  let (flag, net) := cDisableNetwork (st1.netDisabled, st1.net)
  let st2 := { st1 with netDisabled := flag, net := net }
  if st2.readyPosted then ([], st2)
  else ([WMsg.ready (some st2.degraded)], { st2 with readyPosted := true })

/-- The C# worker's warmup branch is identical to the C worker's except that
its `disableNetwork` is the Python-style one that really overrides the
globals. -/
def csWarmup (st : CWorker) (loadOk : Bool) : List WMsg × CWorker :=
  let st1 :=
    if st.backendLoaded then st
    else if loadOk then { st with backendLoaded := true }
    else { st with degraded := true }
  let (flag, net) := pyDisableNetwork (st1.netDisabled, st1.net)
  let st2 := { st1 with netDisabled := flag, net := net }
  if st2.readyPosted then ([], st2)
  else ([WMsg.ready (some st2.degraded)], { st2 with readyPosted := true })

/-- Unavailability message of the C worker's run branch. -/
def cUnavailableMsg : String :=
  "C toolchain is not available in this build. Running C requires a WebAssembly TCC backend. Please check your connection or include a local backend."

/-- Unavailability message of the C# worker's run branch. -/
def csUnavailableMsg : String :=
  "C# toolchain is not available in this build. Running C# requires a WebAssembly .NET backend. Please check your connection or include a local backend."

/-- A JS exception as observed by a worker's catch block: its optional
`message` property and its `String(e)` rendering; the posted message is
`e?.message || String(e)`. -/
structure JsError where
  msg : Option String
  str : String
deriving Repr, DecidableEq

def jsErrMsg (e : JsError) : String :=
  jsOr e.msg e.str

/-- The C worker's `onmessage` handler for `{type:'run', code}`: load the
backend if still missing (failure ⇒ degraded), `disableNetwork()`, report the
unavailability error when no backend is usable, otherwise run
`backend.compileAndRun(code)` — posting its non-empty stdout/stderr through
`ensureTrailingNewline` and a final `done`, or the thrown message as `error`.
`runOutcome` is the environment's result of `compileAndRun`. -/
def cRun (st : CWorker) (loadOk : Bool)
    (runOutcome : Except JsError (String × String)) :
    List WMsg × CWorker :=
  let st1 :=
    if st.backendLoaded then st
    else if loadOk then { st with backendLoaded := true }
    else { st with degraded := true }
  let (flag, net) := cDisableNetwork (st1.netDisabled, st1.net)
  let st2 := { st1 with netDisabled := flag, net := net }
  if !st2.backendLoaded || st2.degraded then
    ([WMsg.error (some cUnavailableMsg)], st2)
  else
    match runOutcome with
    | Except.ok (out, err) =>
      ((if out ≠ "" then [WMsg.stdout (ensureTrailingNewline out)] else []) ++
       (if err ≠ "" then [WMsg.stderr (ensureTrailingNewline err)] else []) ++
       [WMsg.done], st2)
    | Except.error e =>
      ([WMsg.error (some (jsErrMsg e))], st2)

/-- The C# worker's run branch: same structure as `cRun` with the C# message
and the effective `disableNetwork`. -/
def csRun (st : CWorker) (loadOk : Bool)
    (runOutcome : Except JsError (String × String)) :
    List WMsg × CWorker :=
  let st1 :=
    if st.backendLoaded then st
    else if loadOk then { st with backendLoaded := true }
    else { st with degraded := true }
  let (flag, net) := pyDisableNetwork (st1.netDisabled, st1.net)
  let st2 := { st1 with netDisabled := flag, net := net }
  if !st2.backendLoaded || st2.degraded then
    ([WMsg.error (some csUnavailableMsg)], st2)
  else
    match runOutcome with
    | Except.ok (out, err) =>
      ((if out ≠ "" then [WMsg.stdout (ensureTrailingNewline out)] else []) ++
       (if err ≠ "" then [WMsg.stderr (ensureTrailingNewline err)] else []) ++
       [WMsg.done], st2)
    | Except.error e =>
      ([WMsg.error (some (jsErrMsg e))], st2)

/-- The Pyodide stdout hook installed by `ensurePyodide`:
`batched: (s) => postMessage({type:'stdout', data: ensureTrailingNewline(s)})`. -/
def pyStdoutMsg (s : String) : WMsg :=
  WMsg.stdout (ensureTrailingNewline s)

/-- The Pyodide stderr hook installed by `ensurePyodide`. -/
def pyStderrMsg (s : String) : WMsg :=
  WMsg.stderr (ensureTrailingNewline s)

/-! ## The worker-backed Runner facade (`createWorkerRunner`, part_004 /
part_005 lines 30–133) -/

/-- `warmup()` of `createWorkerRunner` settles exactly when the message stream
it subscribes to delivers a `ready` (resolve) or `init-error` (reject)
message; every other message is ignored by its listener. -/
def warmupSettles (posts : List WMsg) : Bool :=
  posts.any fun m =>
    match m with
    | WMsg.ready _ => true
    | WMsg.initError _ => true
    | _ => false

/-- The message listener of `createWorkerRunner.run`: append `stdout`/`stderr`
messages as they arrive, resolve with the accumulated list after appending on
`error` (message defaulted to `'Execution error'`) or `done`, push `ready`
messages into the list without resolving, ignore anything else.  `none` means
the promise has not settled after the listed messages (the timeout clock of
the source is commented out, so no further settlement source exists). -/
def workerRunCollect : List WMsg → List Upd → Option (List Upd)
  | [], _ => none
  | m :: rest, acc =>
    match m with
    | WMsg.stdout d => workerRunCollect rest (acc ++ [Upd.stdout d])
    | WMsg.stderr d => workerRunCollect rest (acc ++ [Upd.stderr d])
    | WMsg.error msg => some (acc ++ [Upd.error (jsOr msg "Execution error")])
    | WMsg.done => some (acc ++ [Upd.done])
    | WMsg.ready _ => workerRunCollect rest (acc ++ [Upd.ready])
    | WMsg.initError _ => workerRunCollect rest acc

/-- `run(code, opts)` of `createWorkerRunner`: when `postMessage` throws the
promise resolves at once with a single error update
(`e?.message ?? 'Failed to start execution'`); otherwise the listener above
processes the worker's messages.  The result is the settled updates list, or
`none` when the promise never settles. -/
def workerRun (postFailure : Option (Option String)) (msgs : List WMsg) :
    Option (List Upd) :=
  match postFailure with
  | some e => some [Upd.error (e.getD "Failed to start execution")]
  | none => workerRunCollect msgs []

/-! ## The remote Paiza runner (`createPaizaRunner`, part_005 lines 567–736) -/

/-- `stripCompilerWarnings` keeps a line iff it is non-blank after trimming
and matches none of the three warning shapes.  GCC/Clang:
`/\bwarning(\s*\[[^\]]+\])?:/i`. -/
def isGccWarningAt : List Char → Bool
  | l =>
    match l with
    | 'w' :: 'a' :: 'r' :: 'n' :: 'i' :: 'n' :: 'g' :: rest =>
      afterWarning rest
    | _ => false
where
  /-- after `warning`: optional whitespace, optional `[…]` bracket group
  (one or more non-`]` characters), then `:`. -/
  afterWarning (rest : List Char) : Bool :=
    let rest1 := rest.dropWhile isJsWhite
    match rest1 with
    | ':' :: _ => true
    | '[' :: r2 =>
      match r2.dropWhile (fun c => c ≠ ']') with
      | ']' :: ':' :: _ => decide (r2.takeWhile (fun c => c ≠ ']') ≠ [])
      | _ => false
    | _ => false

/-- Is a character a word character for JS `\b` (`[A-Za-z0-9_]`)? -/
def isWordChar (c : Char) : Bool :=
  ('a' ≤ c && c ≤ 'z') || ('A' ≤ c && c ≤ 'Z') || ('0' ≤ c && c ≤ '9') || c = '_'

/-- Scan for `/\bwarning(\s*\[[^\]]+\])?:/i` on the lowercased line: a match
may start wherever a word boundary precedes `warning`. -/
def hasGccWarning (l : List Char) : Bool :=
  go (lowerChars l) true
where
  go : List Char → Bool → Bool
    | [], _ => false
    | l@(c :: rest), boundary =>
      (boundary && isGccWarningAt l) || go rest (!isWordChar c)

/-- C# CSC style `/\bwarning\s+CS\d{4}\b/i`: `warning`, one or more
whitespace, `cs` (case-insensitive), exactly four digits followed by a
non-word character or the end. -/
def isCscWarningAt : List Char → Bool
  | 'w' :: 'a' :: 'r' :: 'n' :: 'i' :: 'n' :: 'g' :: rest =>
    match rest with
    | c :: _ =>
      isJsWhite c &&
        (match rest.dropWhile isJsWhite with
         | 'c' :: 's' :: d1 :: d2 :: d3 :: d4 :: tail =>
           d1.isDigit && d2.isDigit && d3.isDigit && d4.isDigit &&
             (match tail with
              | [] => true
              | t :: _ => !isWordChar t)
         | _ => false)
    | [] => false
  | _ => false

def hasCscWarning (l : List Char) : Bool :=
  go (lowerChars l) true
where
  go : List Char → Bool → Bool
    | [], _ => false
    | l@(c :: rest), boundary =>
      (boundary && isCscWarningAt l) || go rest (!isWordChar c)

/-- Generic shorthand `/^\s*W:\s/` (case-sensitive): optional leading
whitespace, a capital `W`, `:`, one whitespace character. -/
def isGenericWarning (l : List Char) : Bool :=
  match l.dropWhile isJsWhite with
  | 'W' :: ':' :: c :: _ => isJsWhite c
  | _ => false

/-- `split(/\r?\n/)`: split on LF, swallowing an immediately preceding CR. -/
def splitLines : List Char → List (List Char)
  | [] => [[]]
  | '\r' :: '\n' :: rest => [] :: splitLines rest
  | '\n' :: rest => [] :: splitLines rest
  | c :: rest =>
    match splitLines rest with
    | [] => [[c]]
    | l :: ls => (c :: l) :: ls

/-- `stripCompilerWarnings(text)` (part_005 lines 580–595): empty text maps to
`''`; otherwise split into lines, drop blank lines and warning-shaped lines,
join with `'\n'`. -/
def stripCompilerWarnings (text : String) : String :=
  if text = "" then ""
  else
    let lines := splitLines text.data
    let filtered := lines.filter fun line =>
      let l := trimChars line
      if l.length = 0 then false
      else if hasGccWarning l then false
      else if hasCscWarning l then false
      else if isGenericWarning l then false
      else true
    String.intercalate "\n" (filtered.map fun l => String.mk l)

/-- The observable outcome of one `fetch` in the Paiza runner: how many
milliseconds the call takes to settle, `res.ok`, `res.status`,
`res.statusText`, and the body text read by `res.text()`. -/
structure HttpResp where
  delay : Nat
  ok : Bool
  status : Nat
  statusText : String
  text : String
deriving Repr

/-- One environment for a Paiza run: the create response and its parsed JSON
fields (`none` models both malformed JSON, which the source degrades to `{}`,
and an absent field), one status response and parsed `status` per poll index,
and the details response with its four output fields. -/
structure PaizaEnv where
  createResp : HttpResp
  createId : Option String
  createStatus : Option String
  statusResp : Nat → HttpResp
  statusVal : Nat → Option String
  detailsResp : HttpResp
  buildStdoutF : Option String
  buildStderrF : Option String
  stdoutF : Option String
  stderrF : Option String

/-- A network call as issued by the Paiza runner: the wall-clock time at which
the `fetch` was started, and the remaining-time budget
(`timeRemaining()` = `Math.max(0, deadline - Date.now())`) that was armed as
its abort timer. -/
structure NetCall where
  issuedAt : Int
  budget : Int
deriving Repr, DecidableEq

/-- Stepping one `fetch` guarded by `setTimeout(() => controller.abort(…),
timeRemaining())`: with budget `b` and response delay `d`, the call is aborted
when the timer wins — either the budget is already zero or the response would
arrive after the deadline.  The clock then reads `now + min d b`: the
response time when it settles, the deadline when the abort timer fired. -/
def fetchStep (deadline now : Int) (r : HttpResp) : Int × Bool :=
  let b : Int := max 0 (deadline - now)
  let aborted := b = 0 || decide (deadline < now + (r.delay : Int))
  (now + min (r.delay : Int) b, aborted)

/-- Error message for a non-OK HTTP response, as formatted at the three call
sites: ``Paiza API error (stage): HTTP status statusText[ - body]``. -/
def paizaHttpErrMsg (stage : String) (r : HttpResp) : String :=
  "Paiza API error (" ++ stage ++ "): HTTP " ++ toString r.status ++ " " ++
    r.statusText ++ (if r.text ≠ "" then " - " ++ r.text else "")

/-- `Execution timed out after ${timeoutMs} ms` (the clamped budget). -/
def paizaTimeoutMsg (timeoutMs : Int) : String :=
  "Execution timed out after " ++ toString timeoutMs ++ " ms"

/-- `Execution aborted or timed out after ${opts?.timeoutMs ?? 20000} ms`
(note: the unclamped option value). -/
def paizaAbortMsg (optTimeout : Option Int) : String :=
  "Execution aborted or timed out after " ++ toString (optTimeout.getD 20000) ++ " ms"

/-- Outcome of the status-polling `while` loop: every branch carries the
network calls it issued, the sleeps it performed, and the clock on exit. -/
inductive LoopOut where
  | timedOut (calls : List NetCall) (sleeps : List Int) (now : Int)
  | aborted (calls : List NetCall) (sleeps : List Int) (now : Int)
  | httpErr (resp : HttpResp) (calls : List NetCall) (sleeps : List Int) (now : Int)
  | completed (calls : List NetCall) (sleeps : List Int) (now : Int)

/-- The polling loop `while (status !== 'completed') { … }` of
`createPaizaRunner.run`, step 2.  Each iteration: exit with the timeout error
when the deadline has passed; otherwise sleep
`Math.min(800, timeRemaining())`, issue the status fetch under an abort timer
armed with `timeRemaining()`, exit on abort or a non-OK response, and
continue with `statusData?.status || 'running'`.

The recursion is structural on `gas`; `paizaRun` supplies
`gas = (deadline - now).toNat`, which `pollLoop_gas_le` below shows is enough
fuel: the `gas = 0` branch can only be reached when the deadline has already
passed, where it coincides with the loop's own timeout exit. -/
def pollLoop (env : PaizaEnv) (deadline : Int) :
    Nat → String → Int → Nat → LoopOut
  | gas, status, now, k =>
    if status = "completed" then LoopOut.completed [] [] now
    else if deadline ≤ now then LoopOut.timedOut [] [] now
    else
      match gas with
      | 0 => LoopOut.timedOut [] [] now
      | g + 1 =>
        let s : Int := min 800 (deadline - now)
        let now1 := now + s
        let b : Int := max 0 (deadline - now1)
        let resp := env.statusResp k
        let call : NetCall := ⟨now1, b⟩
        let fs := fetchStep deadline now1 resp
        if fs.2 then LoopOut.aborted [call] [s] fs.1
        else if !resp.ok then LoopOut.httpErr resp [call] [s] fs.1
        else
          let status1 := jsOr (env.statusVal k) "running"
          match pollLoop env deadline g status1 fs.1 (k + 1) with
          | LoopOut.timedOut cs ss n => LoopOut.timedOut (call :: cs) (s :: ss) n
          | LoopOut.aborted cs ss n => LoopOut.aborted (call :: cs) (s :: ss) n
          | LoopOut.httpErr r cs ss n => LoopOut.httpErr r (call :: cs) (s :: ss) n
          | LoopOut.completed cs ss n => LoopOut.completed (call :: cs) (s :: ss) n

/-- Which exit path a Paiza run took. -/
inductive PaizaExit where
  | success
  | createAborted
  | createHttp
  | missingId
  | pollAborted
  | pollHttp
  | timedOut
  | detailsAborted
  | detailsHttp
deriving Repr, DecidableEq

/-- The materialized record of one Paiza run. -/
structure PaizaResult where
  updates : List Upd
  calls : List NetCall
  sleeps : List Int
  finalNow : Int
  deadline : Int
  timeoutMs : Int
  exit : PaizaExit

/-- The success-path update pushes of step 3 (details handling): each
non-empty collected stream in order `build_stdout`, filtered `build_stderr`,
`stdout`, `stderr`; a single empty `stdout` when all four are empty. -/
def paizaSuccessOuts (env : PaizaEnv) : List Upd :=
  let buildStdout := env.buildStdoutF.getD ""
  let buildStderr := stripCompilerWarnings (env.buildStderrF.getD "")
  let runStdout := env.stdoutF.getD ""
  let runStderr := env.stderrF.getD ""
  if buildStdout = "" && buildStderr = "" && runStdout = "" && runStderr = "" then
    [Upd.stdout ""]
  else
    (if buildStdout ≠ "" then [Upd.stdout buildStdout] else []) ++
    (if buildStderr ≠ "" then [Upd.stderr buildStderr] else []) ++
    (if runStdout ≠ "" then [Upd.stdout runStdout] else []) ++
    (if runStderr ≠ "" then [Upd.stderr runStderr] else [])

/-- `createPaizaRunner(language).run(code, opts)`, as the function of the
network environment and the start clock `t0`:
`timeoutMs = Math.max(1, opts?.timeoutMs ?? 20000)` and
`deadline = Date.now() + timeoutMs` are computed once, before any call; then
the create request, the polling loop, the post-loop deadline check, and the
details request follow the source's branches, every caught failure pushing an
`error` update followed by `done`.  The promise always resolves with the
returned updates (the async body catches every exception). -/
def paizaRun (env : PaizaEnv) (t0 : Int) (optTimeout : Option Int) : PaizaResult :=
  let timeoutMs : Int := max 1 (optTimeout.getD 20000)
  let deadline : Int := t0 + timeoutMs
  let mk (updates : List Upd) (calls : List NetCall) (sleeps : List Int)
      (now : Int) (exit : PaizaExit) : PaizaResult :=
    ⟨updates, calls, sleeps, now, deadline, timeoutMs, exit⟩
  -- 1) create runner session
  let b0 : Int := max 0 (deadline - t0)
  let createCall : NetCall := ⟨t0, b0⟩
  let fs0 := fetchStep deadline t0 env.createResp
  if fs0.2 then
    mk [Upd.error (paizaAbortMsg optTimeout), Upd.done] [createCall] [] fs0.1
      PaizaExit.createAborted
  else if !env.createResp.ok then
    mk [Upd.error (paizaHttpErrMsg "create" env.createResp), Upd.done]
      [createCall] [] fs0.1 PaizaExit.createHttp
  else if jsOr env.createId "" = "" then
    mk [Upd.error "Paiza API error: missing session id from create response",
        Upd.done] [createCall] [] fs0.1 PaizaExit.missingId
  else
    -- 2) poll status until completed or timeout
    let status0 := jsOr env.createStatus "running"
    match pollLoop env deadline (deadline - fs0.1).toNat status0 fs0.1 0 with
    | LoopOut.timedOut cs ss n =>
      mk [Upd.error (paizaTimeoutMsg timeoutMs), Upd.done]
        (createCall :: cs) ss n PaizaExit.timedOut
    | LoopOut.aborted cs ss n =>
      mk [Upd.error (paizaAbortMsg optTimeout), Upd.done]
        (createCall :: cs) ss n PaizaExit.pollAborted
    | LoopOut.httpErr r cs ss n =>
      mk [Upd.error (paizaHttpErrMsg "status" r), Upd.done]
        (createCall :: cs) ss n PaizaExit.pollHttp
    | LoopOut.completed cs ss now2 =>
      -- ensure we still have time budget before fetching details
      if deadline ≤ now2 then
        mk [Upd.error (paizaTimeoutMsg timeoutMs), Upd.done]
          (createCall :: cs) ss now2 PaizaExit.timedOut
      else
        -- 3) fetch details
        let b2 : Int := max 0 (deadline - now2)
        let detailsCall : NetCall := ⟨now2, b2⟩
        let fs2 := fetchStep deadline now2 env.detailsResp
        if fs2.2 then
          mk [Upd.error (paizaAbortMsg optTimeout), Upd.done]
            (createCall :: cs ++ [detailsCall]) ss fs2.1 PaizaExit.detailsAborted
        else if !env.detailsResp.ok then
          mk [Upd.error (paizaHttpErrMsg "details" env.detailsResp), Upd.done]
            (createCall :: cs ++ [detailsCall]) ss fs2.1 PaizaExit.detailsHttp
        else
          mk (paizaSuccessOuts env ++ [Upd.done])
            (createCall :: cs ++ [detailsCall]) ss fs2.1 PaizaExit.success

/-! ## `sanitizePythonError` and `toFriendlyMessage` (Python worker,
src/src/App.tsx appendix lines 600–727) -/

/-- `m.replace(/^PythonError:\s*/, '')`: drop a leading `PythonError:`
together with the whitespace that follows it. -/
def stripPyHead (l : List Char) : List Char :=
  if startsWithChars l "PythonError:".data then
    (l.drop 12).dropWhile isJsWhite
  else l

/-- `/line\s+(\d+)/i` at the head of the list: `line` (case-insensitive), one
or more whitespace characters, then the captured run of digits. -/
def lineNumHere : List Char → Option (List Char)
  | c1 :: c2 :: c3 :: c4 :: rest =>
    if c1.toLower = 'l' && c2.toLower = 'i' && c3.toLower = 'n' && c4.toLower = 'e' then
      match rest with
      | c :: _ =>
        if isJsWhite c then
          let ds := (rest.dropWhile isJsWhite).takeWhile Char.isDigit
          if ds.isEmpty then none else some ds
        else none
      | [] => none
    else none
  | _ => none

/-- First match of `/line\s+(\d+)/i` anywhere in a line. -/
def findLineNum : List Char → Option (List Char)
  | [] => none
  | l@(_ :: rest) =>
    match lineNumHere l with
    | some ds => some ds
    | none => findLineNum rest

/-- The `lineNo` loop of `sanitizePythonError`: scan every line, keeping the
match of the last line that has one. -/
def lastLineNum (lines : List (List Char)) : Option (List Char) :=
  lines.foldl
    (fun acc l =>
      match findLineNum l with
      | some ds => some ds
      | none => acc)
    none

/-- `/^\s*at\s+/` on the raw line (JS stack frames). -/
def isJsFrame (raw : List Char) : Bool :=
  match raw.dropWhile isJsWhite with
  | 'a' :: 't' :: c :: _ => isJsWhite c
  | _ => false

/-- `/^Traceback\b/` on the trimmed line. -/
def isTracebackHead (l : List Char) : Bool :=
  startsWithChars l "Traceback".data &&
    (match l.drop 9 with
     | [] => true
     | c :: _ => !isWordChar c)

/-- `/^File\s+/` on the trimmed line. -/
def isFileLine (l : List Char) : Bool :=
  match l with
  | 'F' :: 'i' :: 'l' :: 'e' :: c :: _ => isJsWhite c
  | _ => false

/-- The skip conditions of the final-line loop: blank lines, JS frames,
traceback headers, File/line entries and caret indicator lines are noise. -/
def isNoiseLine (raw : List Char) : Bool :=
  let l := trimChars raw
  l.isEmpty || isJsFrame raw || isTracebackHead l || isFileLine l || l = ['^']

/-- The final-line loop of `sanitizePythonError`: walk the lines from the end
and keep the first non-noise line, trimmed; empty when every line is noise. -/
def finalLineLoop (lines : List (List Char)) : List Char :=
  match lines.reverse.find? (fun raw => !isNoiseLine raw) with
  | some raw => trimChars raw
  | none => []

/-- `[A-Za-z_]`. -/
def isAlphaU (c : Char) : Bool :=
  ('A' ≤ c && c ≤ 'Z') || ('a' ≤ c && c ≤ 'z') || c = '_'

/-- `/^([A-Za-z_]*Error):\s*(.*)$/.exec(finalLine)`: the leading
`[A-Za-z_]` run must itself end in `Error` and be followed by `:`; the detail
is the rest of the line after the greedy `\s*`. -/
def errTypeSplit (l : List Char) : Option (List Char × List Char) :=
  let w := l.takeWhile isAlphaU
  match l.drop w.length with
  | ':' :: after =>
    if 5 ≤ w.length && startsWithChars w.reverse "rorrE".data then
      some (w, after.dropWhile isJsWhite)
    else none
  | _ => none

/-- `/name\s+'([^']+)'/` at the head of the list. -/
def nameQuotedHere : List Char → Option (List Char)
  | 'n' :: 'a' :: 'm' :: 'e' :: rest =>
    match rest with
    | c :: _ =>
      if isJsWhite c then
        match rest.dropWhile isJsWhite with
        | '\x27' :: r2 =>
          let inner := r2.takeWhile (fun c => c ≠ '\x27')
          if inner.isEmpty then none
          else
            match r2.drop inner.length with
            | '\x27' :: _ => some inner
            | _ => none
        | _ => none
      else none
    | [] => none
  | _ => none

/-- First match of `/name\s+'([^']+)'/` anywhere. -/
def findNameQuoted : List Char → Option (List Char)
  | [] => none
  | l@(_ :: rest) =>
    match nameQuotedHere l with
    | some inner => some inner
    | none => findNameQuoted rest

/-- `/\bline\s+\d+\b/i`: at the head — `line` (case-insensitive), `\s+`,
`\d+`, then a word boundary after the digits. -/
def lineRefHere (l : List Char) : Bool :=
  match lineNumHere l with
  | none => false
  | some ds =>
    match l with
    | _ :: _ :: _ :: _ :: rest =>
      let tail := (rest.dropWhile isJsWhite).drop ds.length
      (match tail with
       | [] => true
       | c :: _ => !isWordChar c)
    | _ => false

/-- `/\bline\s+\d+\b/i.test(finalLine)`: scan with the leading word
boundary. -/
def hasLineRef (l : List Char) : Bool :=
  go l true
where
  go : List Char → Bool → Bool
    | [], _ => false
    | l@(c :: rest), boundary =>
      (boundary && lineRefHere l) || go rest (!isWordChar c)

/-- `withLine(text)` inside `toFriendlyMessage`: append ` (line N)` when a
line number was extracted. -/
def withLineTag (lineNo : Option (List Char)) (text : String) : String :=
  match lineNo with
  | some n => text ++ " (line " ++ String.mk n ++ ")"
  | none => text

/-- `toFriendlyMessage(type, detail, lineNo, full)` (lines 649–727): the fixed
pattern set mapping a raw Python error to a beginner-legible message, or
`none` when no pattern matches. -/
def toFriendlyMessage (type? : Option String) (detail : List Char)
    (lineNo : Option (List Char)) (full : List Char) : Option String :=
  let lowerDetail := lowerChars detail
  let lowerFull := lowerChars full
  let hasD (p : String) : Bool := containsSub lowerDetail p.data
  let hasF (p : String) : Bool := containsSub lowerFull p.data
  let isT (t : String) : Bool := type? = some t
  -- strings not closed
  if hasD "unterminated string literal" || hasD "eol while scanning string literal" ||
      hasF "unterminated string literal" then
    some (withLineTag lineNo "A string starts but isn\x27t finished on the same line.")
  -- invalid syntax (generic)
  else if isT "SyntaxError" && hasD "invalid syntax" then
    some (withLineTag lineNo
      "There\x27s a typo, check for missing or additional symbols or syntax.")
  -- missing colon after if/for/while/def/class
  else if (isT "SyntaxError" && hasD "expected \x27:\x27") || hasF "expected \x27:\x27" then
    some (withLineTag lineNo "You need a colon \x27:\x27 at the end of the previous line.")
  -- incomplete code / things not closed
  else if isT "SyntaxError" &&
      (hasD "unexpected eof while parsing" || hasD "was never closed" ||
        hasF "was never closed") then
    some (withLineTag lineNo
      "Your code seems to stop early or something isn\x27t closed. Check brackets (), [], \x7b\x7d, and quotes.")
  -- unmatched brackets/parentheses
  else if isT "SyntaxError" &&
      (hasD "unmatched" || hasD "mismatched" || hasD "parentheses" ||
        hasD "parenthesis" || hasD "bracket" || hasD "brace") then
    some (withLineTag lineNo
      "Your brackets or parentheses don\x27t match. Make sure every opening symbol has a closing one.")
  -- indentation issues
  else if isT "IndentationError" && hasD "expected an indented block" then
    some (withLineTag lineNo
      "This line should be indented because it belongs to the line above.")
  else if isT "IndentationError" && hasD "unexpected indent" then
    some (withLineTag lineNo
      "This line has extra spaces at the start. Remove the extra indentation.")
  else if isT "IndentationError" && hasD "unindent does not match any outer indentation level" then
    some (withLineTag lineNo
      "The indentation on this line doesn\x27t match the previous lines. Use the same number of spaces for the whole block.")
  -- tabs vs spaces
  else if isT "TabError" then
    some (withLineTag lineNo
      "You\x27re mixing tabs and spaces. Use spaces only for indentation (e.g., 2 or 4 spaces).")
  -- smart quotes / invalid characters
  else if isT "SyntaxError" && hasD "invalid character" &&
      (hasF "u+201c" || hasF "u+201d" || hasF "u+2018" || hasF "u+2019" ||
        containsSub lowerFull "“".data || containsSub lowerFull "”".data ||
        containsSub lowerFull "‘".data || containsSub lowerFull "’".data) then
    some (withLineTag lineNo
      "You used “smart quotes”. Replace them with regular quotes \x27 or \".")
  -- name used before defined
  else if isT "NameError" then
    match findNameQuoted detail with
    | some inner =>
      some (withLineTag lineNo
        ("You used the name \x27" ++ String.mk inner ++ "\x27 before creating it."))
    | none =>
      match findNameQuoted full with
      | some inner =>
        some (withLineTag lineNo
          ("You used the name \x27" ++ String.mk inner ++ "\x27 before creating it."))
      | none => some (withLineTag lineNo "You used a name before creating it.")
  -- adding text and numbers
  else if isT "TypeError" &&
      (hasD "can only concatenate str" || hasD "unsupported operand type(s) for +") then
    some (withLineTag lineNo
      "You\x27re trying to add text and a number. Convert the number with str() or convert text to a number with int()/float().")
  -- divide by zero
  else if isT "ZeroDivisionError" then
    some (withLineTag lineNo
      "You\x27re dividing by zero. Change the denominator to a non-zero value.")
  -- None has no attribute
  else if isT "AttributeError" && hasD "\x27nonetype\x27 object has no attribute" then
    some (withLineTag lineNo
      "You\x27re trying to use something that is empty (None). Make sure the value is created before you use it.")
  else none

/-- The intermediate constants of `sanitizePythonError` for input `msg`:
the extracted `lineNo`, the selected `finalLine` (after the empty-fallback
`lines[lines.length-1]?.trim() || 'Error'`), and the `type`/`detail` split of
the final line. -/
def sanitizePieces (msg : String) :
    Option (List Char) × List Char × Option String × List Char :=
  let m := stripPyHead msg.data
  let lines := splitLines m
  let lineNo := lastLineNum lines
  let fl0 := finalLineLoop lines
  let finalLine :=
    if fl0.isEmpty then
      let lt := trimChars (lines.getLast?.getD [])
      if lt.isEmpty then "Error".data else lt
    else fl0
  let ts := errTypeSplit finalLine
  (lineNo, finalLine,
    ts.map fun td => String.mk td.1,
    match ts with
    | some (_, d) => d
    | none => finalLine)

/-- `sanitizePythonError(msg)` (lines 600–647): strip the Pyodide prefix,
extract the last traceback line number, select the final non-noise line,
split it into type and detail, return the beginner-friendly rewrite when one
matches, otherwise the final line — annotated with ` (line N)` when a line
number was found and the line does not already mention one.  The surrounding
`try`/`catch` (returning the raw string on an internal failure) has no
counterpart here because every step of the model is total. -/
def sanitizePythonError (msg : String) : String :=
  let m := stripPyHead msg.data
  match sanitizePieces msg with
  | (lineNo, finalLine, type?, detail) =>
    match toFriendlyMessage type? detail lineNo m with
    | some friendly => friendly
    | none =>
      if lineNo.isSome && !hasLineRef finalLine then
        String.mk finalLine ++
          " (line " ++ String.mk ((lineNo.getD []) : List Char) ++ ")"
      else
        String.mk finalLine

/-- The fragment of `sanitizePythonError` up to and including the
`toFriendlyMessage` call: the beginner-friendly rewrite the sanitizer would
return, or `none` when no pattern matches and the fallback line is used. -/
def sanitizeFriendlyPart (msg : String) : Option String :=
  let m := stripPyHead msg.data
  match sanitizePieces msg with
  | (lineNo, _, type?, detail) => toFriendlyMessage type? detail lineNo m

/-! ## The DesiredOutput grading-rule union

Modelled from the spec: the repository's README.md states "desiredOutput
strategies supported: none, exact, error, pointer, and text+tokens" and
lessons/LessonGuidelines.md documents the full union, but the grading code
implementing the union is not part of this source snapshot — the included
src/src/App.tsx only performs the exact-style comparison (`gradeCodeQuiz`
above).  The rule semantics below follow the spec's table in §4.4. -/

/-- Modelled from the spec: the `DesiredOutputRule` tagged union of §3/§4.4:
`none | exact(value) | text(value) | error | pointer |
text+tokens(text, sourceTokens)`. -/
inductive DesiredOutputRule where
  | noRule
  | exact (value : String)
  | text (value : String)
  | onError
  | pointer
  | textTokens (text : String) (sourceTokens : List String)

/-- Is `c` a hexadecimal digit? -/
def isHexDigitChar (c : Char) : Bool :=
  c.isDigit || ('a' ≤ c && c ≤ 'f') || ('A' ≤ c && c ≤ 'F')

/-- Modelled from the spec: does a hexadecimal-looking address token — `0x`
followed by a hex digit — start at the head of the text? -/
def startsPointerToken : List Char → Bool
  | c1 :: c2 :: c3 :: _ => c1 = '0' && c2 = 'x' && isHexDigitChar c3
  | _ => false

/-- Modelled from the spec: a hexadecimal-looking address token (`0x` followed
by at least one hex digit) occurs anywhere in the text. -/
def containsPointerToken (s : String) : Bool :=
  go s.data
where
  go : List Char → Bool
    | [] => false
    | l@(_ :: rest) => startsPointerToken l || go rest

/-- JS-style substring containment on strings. -/
def strIncludes (hay pat : String) : Bool :=
  containsSub hay.data pat.data

/-- Modelled from the spec (§4.4 rule table): pass/fail of a completed run
against a `DesiredOutputRule`, as a pure function of the rule, the aggregated
output, the reported error (if any) and the final submitted source text.
`none`: always passes.  `exact`: no error and normalized equality.  `text`:
no error and trimmed normalized equality.  `error`: an error was reported
(any error counts).  `pointer`: the output contains a hex address token
anywhere.  `text+tokens`: un-normalized output containment plus every source
token present. -/
def gradeRule (rule : DesiredOutputRule) (aggregatedOutput : String)
    (err : Option String) (finalSource : String) : Bool :=
  match rule with
  | DesiredOutputRule.noRule => true
  | DesiredOutputRule.exact v =>
    !errTruthy err && normText aggregatedOutput == normText v
  | DesiredOutputRule.text v =>
    !errTruthy err &&
      String.mk (trimChars (normText aggregatedOutput).data) ==
        String.mk (trimChars (normText v).data)
  | DesiredOutputRule.onError => err.isSome
  | DesiredOutputRule.pointer => containsPointerToken aggregatedOutput
  | DesiredOutputRule.textTokens t toks =>
    strIncludes aggregatedOutput t && toks.all fun tok => strIncludes finalSource tok

/-! ## Supporting lemmas -/

/-- A head surviving `dropWhile p` does not satisfy `p`. -/
theorem head?_dropWhile_false {p : Char → Bool} {l : List Char} {c : Char}
    (h : (l.dropWhile p).head? = some c) : p c = false := by
  induction l with
  | nil => simp at h
  | cons a t ih =>
    by_cases hp : p a
    · rw [List.dropWhile_cons_of_pos hp] at h; exact ih h
    · rw [List.dropWhile_cons_of_neg hp] at h
      simp at h
      subst h
      simpa using hp

/-- Members of `trimEndChars l` are members of `l`. -/
theorem mem_of_mem_trimEndChars {l : List Char} {c : Char}
    (h : c ∈ trimEndChars l) : c ∈ l := by
  unfold trimEndChars at h
  rw [List.mem_reverse] at h
  exact List.mem_reverse.mp ((List.dropWhile_sublist (p := isJsWhite)).mem h)

/-- The last character surviving `trimEndChars` is not whitespace. -/
theorem trimEndChars_getLast? {l : List Char} {c : Char}
    (h : (trimEndChars l).getLast? = some c) : isJsWhite c = false := by
  unfold trimEndChars at h
  rw [List.getLast?_reverse] at h
  exact head?_dropWhile_false h

/-- `replaceCrlf` followed by `crToLf` leaves no carriage return. -/
theorem crToLf_ne_cr (c : Char) : crToLf c ≠ '\r' := by
  unfold crToLf
  split
  · decide
  · assumption

/-- `ensureTrailingNewline` always yields a newline-terminated string. -/
theorem ensureTrailingNewline_endsNl (s : String) :
    endsWithNewline (ensureTrailingNewline s) = true := by
  unfold ensureTrailingNewline
  by_cases h : endsWithNewline s
  · simp [h]
  · simp only [h, if_neg, Bool.false_eq_true, ite_false]
    unfold endsWithNewline
    rw [String.data_append]
    simp [List.getLast?_concat s.data]

/-! ## C1 -/

/-- C1: For a code quiz whose desired-output rule is the exact comparison
against `"7 3"`, a completed run with no error and aggregated output
`"7 3\n"` is graded as passing, while output `"7  3"` (extra interior space)
is graded as failing; and the normalizer applied to both sides before the
comparison leaves no carriage return (CRLF/CR became LF) and no trailing
whitespace. -/
theorem C1_exact_grading_normalization :
    gradeCodeQuiz "7 3" "7 3\n" none = true ∧
    gradeCodeQuiz "7 3" "7  3" none = false ∧
    (∀ s : String, (normText s).data.contains '\r' = false) ∧
    (∀ s : String, (normText s).data.getLast?.all (fun c => !isJsWhite c) = true) := by
  refine ⟨by decide, by decide, ?_, ?_⟩
  · intro s
    have hnm : '\r' ∉ (normText s).data := by
      intro hmem
      unfold normText at hmem
      have h1 : '\r' ∈ (replaceCrlf s.data).map crToLf := mem_of_mem_trimEndChars hmem
      rcases List.mem_map.mp h1 with ⟨c, _, hc⟩
      exact crToLf_ne_cr c hc
    simpa using hnm
  · intro s
    unfold normText
    cases h : (trimEndChars ((replaceCrlf s.data).map crToLf)).getLast? with
    | none => simp [Option.all, h]
    | some c =>
      simp only [Option.all, h]
      simpa using trimEndChars_getLast? h

/-! ## C5 -/

/-- C5: Under the grading rule `error`, a completed run that reported no
error is graded as failing, and a completed run that reported any error
(regardless of its message) is graded as passing. -/
theorem C5_error_rule_grading :
    (∀ out src : String, gradeRule DesiredOutputRule.onError out none src = false) ∧
    (∀ (out src msg : String),
      gradeRule DesiredOutputRule.onError out (some msg) src = true) := by
  exact ⟨fun _ _ => rfl, fun _ _ _ => rfl⟩

/-! ## C6 -/

/-- C6: Under the grading rule `pointer`, a run whose output contains a hex
address token (`0x` followed by hex digits) anywhere passes, and a run whose
output contains only decimal numbers (in particular, no `x` at all) fails. -/
theorem C6_pointer_rule_grading :
    (∀ err : Option String, ∀ src : String,
      gradeRule DesiredOutputRule.pointer "Address: 0x7ffeeabc1234" err src = true) ∧
    (∀ err : Option String, ∀ src : String,
      gradeRule DesiredOutputRule.pointer "Address: 12345 67890" err src = false) ∧
    (∀ s : String, 'x' ∉ s.data →
      ∀ err : Option String, ∀ src : String,
        gradeRule DesiredOutputRule.pointer s err src = false) := by
  refine ⟨fun _ _ => by show containsPointerToken "Address: 0x7ffeeabc1234" = true; decide,
    fun _ _ => by show containsPointerToken "Address: 12345 67890" = false; decide, ?_⟩
  intro s hx err src
  show containsPointerToken s = false
  unfold containsPointerToken
  have key : ∀ l : List Char, 'x' ∉ l → containsPointerToken.go l = false := by
    intro l
    induction l with
    | nil => intro _; rfl
    | cons c rest ih =>
      intro hmem
      simp only [List.mem_cons, not_or] at hmem
      have hrest : containsPointerToken.go rest = false := by
        rcases rest with _ | ⟨c2, rest2⟩
        · rfl
        · exact ih hmem.2
      have hstart : startsPointerToken (c :: rest) = false := by
        rcases rest with _ | ⟨c2, rest2⟩
        · rfl
        · rcases rest2 with _ | ⟨c3, rest3⟩
          · rfl
          · have hc2 : c2 ≠ 'x' := by
              intro hh
              exact hmem.2 (by simp [hh])
            simp [startsPointerToken, hc2]
      rw [containsPointerToken.go, hstart, hrest]
      rfl
  exact key s.data hx

/-- C6 witness: the general decimal-only part applied at a concrete run. -/
theorem C6_pointer_rule_grading_witness :
    gradeRule DesiredOutputRule.pointer "1024" none "" = false :=
  C6_pointer_rule_grading.2.2 "1024" (by decide) none ""

/-! ## C10 -/

/-- Does a worker message carry newline-terminated text?  (Trivially true for
non-output messages.) -/
def msgPayloadNl : WMsg → Bool
  | WMsg.stdout d => endsWithNewline d
  | WMsg.stderr d => endsWithNewline d
  | _ => true

/-- C10: `ensureTrailingNewline` returns its argument unchanged when it
already ends with `"\n"`, otherwise appends exactly one `"\n"`; it is
idempotent; and every stdout/stderr message posted by the in-worker backends
(the Pyodide output hooks of the Python worker, and the run branches of the C
and C# workers) carries newline-terminated text. -/
theorem C10_trailing_newline :
    (∀ s : String, endsWithNewline s = true → ensureTrailingNewline s = s) ∧
    (∀ s : String, endsWithNewline s = false → ensureTrailingNewline s = s ++ "\n") ∧
    (∀ s : String,
      ensureTrailingNewline (ensureTrailingNewline s) = ensureTrailingNewline s) ∧
    (∀ s : String, msgPayloadNl (pyStdoutMsg s) = true ∧
      msgPayloadNl (pyStderrMsg s) = true) ∧
    (∀ (st : CWorker) (loadOk : Bool)
        (rr : Except JsError (String × String)),
      ((cRun st loadOk rr).1.all msgPayloadNl = true) ∧
      ((csRun st loadOk rr).1.all msgPayloadNl = true)) := by
  have hnl : ∀ s : String, endsWithNewline (ensureTrailingNewline s) = true :=
    ensureTrailingNewline_endsNl
  refine ⟨?_, ?_, ?_, ?_, ?_⟩
  · intro s h
    unfold ensureTrailingNewline
    simp [h]
  · intro s h
    unfold ensureTrailingNewline
    simp [h]
  · intro s
    rw [ensureTrailingNewline, if_pos (hnl s)]
  · intro s
    exact ⟨by simp [pyStdoutMsg, msgPayloadNl, hnl], by simp [pyStderrMsg, msgPayloadNl, hnl]⟩
  · intro st loadOk rr
    constructor
    · unfold cRun
      rcases rr with e | ⟨out, err⟩ <;>
        simp [msgPayloadNl, List.all_append, hnl] <;> split_ifs <;>
          simp [msgPayloadNl, hnl]
    · unfold csRun
      rcases rr with e | ⟨out, err⟩ <;>
        simp [msgPayloadNl, List.all_append, hnl] <;> split_ifs <;>
          simp [msgPayloadNl, hnl]

/-! ## C2 -/

/-- C2 (code bug): the C worker's `disableNetwork` returns before doing
anything (`will add back in later once other issues are fixed`), so after a
successful C-worker warmup every network global is still native and invoking
`fetch` (or any other primitive) from executed user code succeeds instead of
throwing — contradicting both the claim and the worker's own header comment.
For contrast, the Python worker's warmup does override all four primitives
(and its `fetch` blocker throws a longer message than the literal
`"Network access disabled"`). -/
theorem C2_cWorker_network_not_blocked :
    ((cWarmup cWorker0 true).1 = [WMsg.ready (some false)]) ∧
    ((cWarmup cWorker0 true).2.net = nativeNet) ∧
    (invokeNet (cWarmup cWorker0 true).2.net.fetchG = Except.ok ()) ∧
    (invokeNet (cWarmup cWorker0 true).2.net.xhrG = Except.ok ()) ∧
    (invokeNet (cWarmup cWorker0 true).2.net.webSocketG = Except.ok ()) ∧
    (invokeNet (cWarmup cWorker0 true).2.net.eventSourceG = Except.ok ()) ∧

    (∀ st : Bool × NetGlobals, cDisableNetwork st = st) ∧
    ((pyWarmup pyWorker0 true "e").2.net =
      ⟨NetPrim.blocked "Network access is disabled in the code interpreter",
       NetPrim.blocked "Network access disabled",
       NetPrim.blocked "Network access disabled",
       NetPrim.blocked "Network access disabled"⟩) := by
  refine ⟨by decide, by decide, rfl, rfl, rfl, rfl, fun st => rfl, by decide⟩

/-! ## C3 -/

/-- The run listener resolves only by appending a terminal update: whatever
was accumulated, a settled updates list ends in `error` or `done`. -/
theorem workerRunCollect_terminal :
    ∀ (msgs : List WMsg) (acc us : List Upd),
      workerRunCollect msgs acc = some us →
      us.getLast?.all isTerminalUpd = true := by
  intro msgs
  induction msgs with
  | nil => intro acc us h; simp [workerRunCollect] at h
  | cons m rest ih =>
    intro acc us h
    cases m with
    | stdout d => exact ih _ _ h
    | stderr d => exact ih _ _ h
    | ready dg => exact ih _ _ h
    | initError e => exact ih _ _ h
    | error msg =>
      simp only [workerRunCollect, Option.some.injEq] at h
      subst h
      simp [List.getLast?_concat, isTerminalUpd]
    | done =>
      simp only [workerRunCollect, Option.some.injEq] at h
      subst h
      simp [List.getLast?_concat, isTerminalUpd]

/-- Every updates list a Paiza run resolves with ends in `done`. -/
theorem paizaRun_getLast_done (env : PaizaEnv) (t0 : Int) (opt : Option Int) :
    ((paizaRun env t0 opt).updates).getLast? = some Upd.done := by
  unfold paizaRun
  dsimp only
  split
  · simp
  · split
    · simp
    · split
      · simp
      · split
        · simp
        · simp
        · simp
        · split
          · simp
          · split
            · simp
            · split
              · simp
              · simp [List.getLast?_concat]

/-- C3: For every backend, the run promise never rejects; whenever it
settles, it resolves with an updates list whose last element is a terminal
`error` or `done` update.  The worker-backed runner settles exactly when a
terminal message arrives (or `postMessage` throws, which becomes an error
update); the Paiza runner's async body catches every failure and always
resolves with a list ending in `done`. -/
theorem C3_run_promise_always_terminal :
    (∀ (pf : Option (Option String)) (msgs : List WMsg) (us : List Upd),
      workerRun pf msgs = some us → us.getLast?.all isTerminalUpd = true) ∧
    (∀ (env : PaizaEnv) (t0 : Int) (opt : Option Int),
      ((paizaRun env t0 opt).updates).getLast?.all isTerminalUpd = true) := by
  constructor
  · intro pf msgs us h
    cases pf with
    | some e =>
      simp only [workerRun, Option.some.injEq] at h
      subst h
      simp [isTerminalUpd]
    | none => exact workerRunCollect_terminal msgs [] us h
  · intro env t0 opt
    rw [paizaRun_getLast_done]
    rfl

/-- C3 witness: the worker-backed part applied at a concrete settled run. -/
theorem C3_run_promise_always_terminal_witness :
    ([Upd.stdout "hi\n", Upd.done] : List Upd).getLast?.all isTerminalUpd = true :=
  C3_run_promise_always_terminal.1 none [WMsg.stdout "hi\n", WMsg.done]
    [Upd.stdout "hi\n", Upd.done] (by decide)

/-! ## C7 -/

/-- A Paiza environment whose create request answers HTTP 500. -/
def envCreateFail : PaizaEnv where
  createResp := ⟨0, false, 500, "Internal Server Error", ""⟩
  createId := none
  createStatus := none
  statusResp := fun _ => ⟨0, true, 200, "OK", ""⟩
  statusVal := fun _ => some "completed"
  detailsResp := ⟨0, true, 200, "OK", ""⟩
  buildStdoutF := none
  buildStderrF := none
  stdoutF := none
  stderrF := none

/-- C7 counterexample: on the remote-API runner a failing create request
produces an updates sequence containing both one `error` update and one
`done` update — the error is followed by a final `done`, so a run's sequence
does not contain exactly one of the two. -/
theorem C7_error_and_done_counterexample :
    ((paizaRun envCreateFail 0 (some 5)).updates =
      [Upd.error "Paiza API error (create): HTTP 500 Internal Server Error",
        Upd.done]) ∧
    ((paizaRun envCreateFail 0 (some 5)).updates.countP isErrorUpd = 1) ∧
    ((paizaRun envCreateFail 0 (some 5)).updates.countP isDoneUpd = 1) := by
  refine ⟨by decide, by decide, by decide⟩

/-- The run listener keeps the terminal count of the accumulator invariant
and settles with exactly one more terminal update. -/
theorem workerRunCollect_count :
    ∀ (msgs : List WMsg) (acc us : List Upd),
      acc.countP isTerminalUpd = 0 →
      workerRunCollect msgs acc = some us →
      us.countP isTerminalUpd = 1 := by
  intro msgs
  induction msgs with
  | nil => intro acc us _ h; simp [workerRunCollect] at h
  | cons m rest ih =>
    intro acc us hacc h
    cases m with
    | stdout d =>
      refine ih _ _ ?_ h
      simp [List.countP_append, hacc, List.countP_cons, isTerminalUpd]
    | stderr d =>
      refine ih _ _ ?_ h
      simp [List.countP_append, hacc, List.countP_cons, isTerminalUpd]
    | ready dg =>
      refine ih _ _ ?_ h
      simp [List.countP_append, hacc, List.countP_cons, isTerminalUpd]
    | initError e => exact ih _ _ hacc h
    | error msg =>
      simp only [workerRunCollect, Option.some.injEq] at h
      subst h
      simp [List.countP_append, hacc, List.countP_cons, isTerminalUpd]
    | done =>
      simp only [workerRunCollect, Option.some.injEq] at h
      subst h
      simp [List.countP_append, hacc, List.countP_cons, isTerminalUpd]

/-- The success-path output pushes contain no `done` and no `error`. -/
theorem paizaSuccessOuts_counts (env : PaizaEnv) :
    (paizaSuccessOuts env).countP isDoneUpd = 0 ∧
    (paizaSuccessOuts env).countP isErrorUpd = 0 := by
  constructor <;>
  · unfold paizaSuccessOuts
    dsimp only
    split_ifs <;>
      simp [List.countP_append, List.countP_cons, isDoneUpd, isErrorUpd]

/-- C7 (amended): every materialized updates sequence ends in a terminal
update with nothing after it; the worker-backed runner's sequence contains
exactly one terminal update, but the remote-API runner appends a final `done`
after any `error`, so a failing remote run contains one `error` and one
`done` (never two of either). -/
theorem C7_terminal_update_amended :
    (∀ (msgs : List WMsg) (us : List Upd),
      workerRunCollect msgs [] = some us →
      us.countP isTerminalUpd = 1 ∧ us.getLast?.all isTerminalUpd = true) ∧
    (∀ (env : PaizaEnv) (t0 : Int) (opt : Option Int),
      ((paizaRun env t0 opt).updates).countP isDoneUpd = 1 ∧
      ((paizaRun env t0 opt).updates).countP isErrorUpd ≤ 1 ∧
      ((paizaRun env t0 opt).updates).getLast? = some Upd.done) := by
  constructor
  · intro msgs us h
    exact ⟨workerRunCollect_count msgs [] us rfl h,
      workerRunCollect_terminal msgs [] us h⟩
  · intro env t0 opt
    refine ⟨?_, ?_, paizaRun_getLast_done env t0 opt⟩ <;>
    · unfold paizaRun
      dsimp only
      split
      · simp [List.countP_cons, isDoneUpd, isErrorUpd]
      · split
        · simp [List.countP_cons, isDoneUpd, isErrorUpd]
        · split
          · simp [List.countP_cons, isDoneUpd, isErrorUpd]
          · split
            · simp [List.countP_cons, isDoneUpd, isErrorUpd]
            · simp [List.countP_cons, isDoneUpd, isErrorUpd]
            · simp [List.countP_cons, isDoneUpd, isErrorUpd]
            · split
              · simp [List.countP_cons, isDoneUpd, isErrorUpd]
              · split
                · simp [List.countP_cons, isDoneUpd, isErrorUpd]
                · split
                  · simp [List.countP_cons, isDoneUpd, isErrorUpd]
                  · simp [List.countP_append, List.countP_cons, isDoneUpd,
                      isErrorUpd, paizaSuccessOuts_counts env]

/-- C7 witness for the amended theorem: a concrete worker run settling on a
single `done`. -/
theorem C7_terminal_update_amended_witness :
    ([Upd.done] : List Upd).countP isTerminalUpd = 1 ∧
    ([Upd.done] : List Upd).getLast?.all isTerminalUpd = true :=
  C7_terminal_update_amended.1 [WMsg.done] [Upd.done] (by decide)

/-! ## C8 -/

/-- C8 counterexample: after a successful first warmup, a second warmup
message makes the already-ready worker post nothing at all — in particular no
second `ready` — so the facade's second `warmup()` promise, which waits for a
`ready` or `init-error` message, never settles (it settles zero times, not
exactly once).  This holds for the Python worker and the C worker alike. -/
theorem C8_second_warmup_counterexample :
    (warmupSettles (pyWarmup pyWorker0 true "e").1 = true) ∧
    ((pyWarmup (pyWarmup pyWorker0 true "e").2 true "e").1 = []) ∧
    (warmupSettles (pyWarmup (pyWarmup pyWorker0 true "e").2 true "e").1 = false) ∧
    (warmupSettles (cWarmup cWorker0 true).1 = true) ∧
    ((cWarmup (cWarmup cWorker0 true).2 true).1 = []) ∧
    (warmupSettles (cWarmup (cWarmup cWorker0 true).2 true).1 = false) := by
  refine ⟨by decide, by decide, by decide, by decide, by decide, by decide⟩

/-- C8 (amended): a second warmup on an already-ready context does not
re-trigger toolchain loading and does not emit a second `ready` signal — the
worker state is left entirely unchanged and nothing is posted — but as a
consequence the second `warmup()` promise never settles, because the facade
waits for a `ready`/`init-error` message that is never re-sent. -/
theorem C8_warmup_idempotent_amended :
    (∀ (st : PyWorker) (loadOk : Bool) (e : String),
      st.loadStarted = true → st.loadOutcome = true → st.netDisabled = true →
      (pyWarmup st loadOk e).1 = [] ∧ (pyWarmup st loadOk e).2 = st ∧
        warmupSettles (pyWarmup st loadOk e).1 = false) ∧
    (∀ (st : CWorker) (loadOk : Bool),
      st.backendLoaded = true → st.readyPosted = true →
      (cWarmup st loadOk).1 = [] ∧ (cWarmup st loadOk).2 = st ∧
        warmupSettles (cWarmup st loadOk).1 = false) := by
  constructor
  · intro st loadOk e h1 h2 h3
    obtain ⟨ls, lo, nd, net⟩ := st
    simp only at h1 h2 h3
    subst h1; subst h2; subst h3
    have hwe : pyWarmup ⟨true, true, true, net⟩ loadOk e = ([], ⟨true, true, true, net⟩) := by
      unfold pyWarmup ensurePyodide pyDisableNetwork
      simp
    refine ⟨by rw [hwe], by rw [hwe], by rw [hwe]; rfl⟩
  · intro st loadOk h1 h2
    obtain ⟨bl, dg, rp, nd, net⟩ := st
    simp only at h1 h2
    subst h1; subst h2
    have hwe : cWarmup ⟨true, dg, true, nd, net⟩ loadOk = ([], ⟨true, dg, true, nd, net⟩) := by
      unfold cWarmup cDisableNetwork
      simp
    refine ⟨by rw [hwe], by rw [hwe], by rw [hwe]; rfl⟩

/-- C8 witness: the amended theorem applied at the state left behind by a
successful first warmup of each worker. -/
theorem C8_warmup_idempotent_amended_witness :
    ((pyWarmup (pyWarmup pyWorker0 true "e").2 true "e").1 = [] ∧
      (pyWarmup (pyWarmup pyWorker0 true "e").2 true "e").2 =
        (pyWarmup pyWorker0 true "e").2 ∧
      warmupSettles (pyWarmup (pyWarmup pyWorker0 true "e").2 true "e").1 = false) ∧
    ((cWarmup (cWarmup cWorker0 true).2 true).1 = [] ∧
      (cWarmup (cWarmup cWorker0 true).2 true).2 = (cWarmup cWorker0 true).2 ∧
      warmupSettles (cWarmup (cWarmup cWorker0 true).2 true).1 = false) :=
  ⟨C8_warmup_idempotent_amended.1 (pyWarmup pyWorker0 true "e").2 true "e"
      (by decide) (by decide) (by decide),
    C8_warmup_idempotent_amended.2 (cWarmup cWorker0 true).2 true
      (by decide) (by decide)⟩

/-! ## C4 -/

def LoopOut.callsOf : LoopOut → List NetCall
  | LoopOut.timedOut cs _ _ => cs
  | LoopOut.aborted cs _ _ => cs
  | LoopOut.httpErr _ cs _ _ => cs
  | LoopOut.completed cs _ _ => cs

def LoopOut.sleepsOf : LoopOut → List Int
  | LoopOut.timedOut _ ss _ => ss
  | LoopOut.aborted _ ss _ => ss
  | LoopOut.httpErr _ _ ss _ => ss
  | LoopOut.completed _ ss _ => ss

def LoopOut.nowOf : LoopOut → Int
  | LoopOut.timedOut _ _ n => n
  | LoopOut.aborted _ _ n => n
  | LoopOut.httpErr _ _ _ n => n
  | LoopOut.completed _ _ n => n

/-- Invariants of the polling loop, whatever the fuel: every status fetch is
issued no later than the deadline with the non-negative budget
`max 0 (deadline - issuedAt)` armed on its abort timer, every sleep lasts
between 1 and 800 ms, and the clock on exit never exceeds the deadline when
it did not on entry. -/
theorem pollLoop_spec (env : PaizaEnv) (deadline : Int) :
    ∀ (gas : Nat) (status : String) (now : Int) (k : Nat),
      now ≤ deadline →
      (∀ c ∈ (pollLoop env deadline gas status now k).callsOf,
        0 ≤ c.budget ∧ c.budget = max 0 (deadline - c.issuedAt) ∧
          c.issuedAt ≤ deadline) ∧
      (∀ s ∈ (pollLoop env deadline gas status now k).sleepsOf,
        1 ≤ s ∧ s ≤ 800) ∧
      (pollLoop env deadline gas status now k).nowOf ≤ deadline := by
  intro gas
  induction gas with
  | zero =>
    intro status now k hnow
    rw [pollLoop]
    split
    · simp [LoopOut.callsOf, LoopOut.sleepsOf, LoopOut.nowOf, hnow]
    · split
      · simp [LoopOut.callsOf, LoopOut.sleepsOf, LoopOut.nowOf, hnow]
      · simp [LoopOut.callsOf, LoopOut.sleepsOf, LoopOut.nowOf, hnow]
  | succ g ih =>
    intro status now k hnow
    rw [pollLoop]
    split
    · simp [LoopOut.callsOf, LoopOut.sleepsOf, LoopOut.nowOf, hnow]
    · split
      · simp [LoopOut.callsOf, LoopOut.sleepsOf, LoopOut.nowOf, hnow]
      · rename_i hcomp htime
        dsimp only
        have hlt : now < deadline := by
          simp at htime
          omega
        set s : Int := min 800 (deadline - now) with hs
        set now1 : Int := now + s with hnow1
        have hs1 : 1 ≤ s := by omega
        have hs800 : s ≤ 800 := by omega
        have hnow1le : now1 ≤ deadline := by omega
        have hfs1 : (fetchStep deadline now1 (env.statusResp k)).1 =
            now1 + min ((env.statusResp k).delay : Int)
              (max 0 (deadline - now1)) := rfl
        have hfsle : (fetchStep deadline now1 (env.statusResp k)).1 ≤ deadline := by
          rw [hfs1]
          have : (0 : Int) ≤ ((env.statusResp k).delay : Int) := Int.ofNat_nonneg _
          omega
        split
        · refine ⟨?_, ?_, ?_⟩
          · intro c hc
            simp [LoopOut.callsOf] at hc
            subst hc
            refine ⟨?_, rfl, hnow1le⟩
            show (0 : Int) ≤ max 0 (deadline - now1)
            omega
          · intro x hx
            simp [LoopOut.sleepsOf] at hx
            omega
          · simpa [LoopOut.nowOf] using hfsle
        · split
          · refine ⟨?_, ?_, ?_⟩
            · intro c hc
              simp [LoopOut.callsOf] at hc
              subst hc
              refine ⟨?_, rfl, hnow1le⟩
              show (0 : Int) ≤ max 0 (deadline - now1)
              omega
            · intro x hx
              simp [LoopOut.sleepsOf] at hx
              omega
            · simpa [LoopOut.nowOf] using hfsle
          · have hrec := ih (jsOr (env.statusVal k) "running")
              ((fetchStep deadline now1 (env.statusResp k)).1) (k + 1) hfsle
            split <;> rename_i hmatch <;> rw [hmatch] at hrec <;>
              refine ⟨?_, ?_, ?_⟩
            all_goals first
            | (intro c hc
               simp only [LoopOut.callsOf, List.mem_cons] at hc
               rcases hc with hc | hc
               · subst hc
                 refine ⟨?_, rfl, hnow1le⟩
                 show (0 : Int) ≤ max 0 (deadline - now1)
                 omega
               · exact hrec.1 c (by simp [LoopOut.callsOf, hc]))
            | (intro x hx
               simp only [LoopOut.sleepsOf, List.mem_cons] at hx
               rcases hx with hx | hx
               · subst hx
                 exact ⟨hs1, hs800⟩
               · exact hrec.2.1 x (by simp [LoopOut.sleepsOf, hx]))
            | (simpa [LoopOut.nowOf] using hrec.2.2)

/-- Definitional unfolding of `pollLoop` at fuel 0. -/
theorem pollLoop_zero (env : PaizaEnv) (deadline : Int) (status : String)
    (now : Int) (k : Nat) :
    pollLoop env deadline 0 status now k =
      if status = "completed" then LoopOut.completed [] [] now
      else LoopOut.timedOut [] [] now := by
  show (if status = "completed" then LoopOut.completed [] [] now
    else if deadline ≤ now then LoopOut.timedOut [] [] now
    else LoopOut.timedOut [] [] now) = _
  split
  · rfl
  · split <;> rfl

/-- Definitional unfolding of `pollLoop` at successor fuel. -/
theorem pollLoop_succ (env : PaizaEnv) (deadline : Int) (g : Nat)
    (status : String) (now : Int) (k : Nat) :
    pollLoop env deadline (g + 1) status now k =
      if status = "completed" then LoopOut.completed [] [] now
      else if deadline ≤ now then LoopOut.timedOut [] [] now
      else
        let s : Int := min 800 (deadline - now)
        let now1 := now + s
        let b : Int := max 0 (deadline - now1)
        let resp := env.statusResp k
        let call : NetCall := ⟨now1, b⟩
        let fs := fetchStep deadline now1 resp
        if fs.2 then LoopOut.aborted [call] [s] fs.1
        else if !resp.ok then LoopOut.httpErr resp [call] [s] fs.1
        else
          let status1 := jsOr (env.statusVal k) "running"
          match pollLoop env deadline g status1 fs.1 (k + 1) with
          | LoopOut.timedOut cs ss n => LoopOut.timedOut (call :: cs) (s :: ss) n
          | LoopOut.aborted cs ss n => LoopOut.aborted (call :: cs) (s :: ss) n
          | LoopOut.httpErr r cs ss n => LoopOut.httpErr r (call :: cs) (s :: ss) n
          | LoopOut.completed cs ss n => LoopOut.completed (call :: cs) (s :: ss) n :=
  rfl

/-- Fuel irrelevance: any fuel at least `(deadline - now).toNat` gives the
same loop result, so `pollLoop` with the fuel supplied by `paizaRun` is the
(unique) semantics of the source's `while` loop — the fuel-exhausted branch
is unreachable. -/
theorem pollLoop_gas_le (env : PaizaEnv) (deadline : Int) :
    ∀ (g1 g2 : Nat) (status : String) (now : Int) (k : Nat),
      (deadline - now).toNat ≤ g1 → (deadline - now).toNat ≤ g2 →
      pollLoop env deadline g1 status now k = pollLoop env deadline g2 status now k := by
  intro g1
  induction g1 with
  | zero =>
    intro g2 status now k h1 h2
    have hx : deadline ≤ now := by omega
    cases g2 with
    | zero => rfl
    | succ g2 =>
      rw [pollLoop_zero, pollLoop_succ]
      split
      · rfl
      · simp [hx]
  | succ g ih =>
    intro g2 status now k h1 h2
    cases g2 with
    | zero =>
      have hx : deadline ≤ now := by omega
      rw [pollLoop_zero, pollLoop_succ]
      split
      · rfl
      · simp [hx]
    | succ g2 =>
      rw [pollLoop_succ, pollLoop_succ]
      split
      · rfl
      · split
        · rfl
        · rename_i hcomp htime
          have hlt : now < deadline := by
            simp at htime
            omega
          dsimp only
          set s : Int := min 800 (deadline - now) with hs
          set now1 : Int := now + s with hnow1
          have hs1 : 1 ≤ s := by omega
          have hfs1 : (fetchStep deadline now1 (env.statusResp k)).1 =
              now1 + min ((env.statusResp k).delay : Int)
                (max 0 (deadline - now1)) := rfl
          have hdpos : (0 : Int) ≤ ((env.statusResp k).delay : Int) :=
            Int.ofNat_nonneg _
          have hm1 : (deadline - (fetchStep deadline now1 (env.statusResp k)).1).toNat ≤ g := by
            rw [hfs1]
            omega
          have hm2 : (deadline - (fetchStep deadline now1 (env.statusResp k)).1).toNat ≤ g2 := by
            rw [hfs1]
            omega
          rw [ih g2 (jsOr (env.statusVal k) "running")
            ((fetchStep deadline now1 (env.statusResp k)).1) (k + 1) hm1 hm2]

/-- C4: For the remote-API backend: the deadline is computed exactly once at
run start (`deadline = t0 + timeoutMs` with the clamped `timeoutMs ≥ 1`, and
every network call's armed budget equals `max 0 (deadline - issuedAt)` for
that single deadline); no network call is ever issued with a negative
remaining-time budget, nor after the deadline; each poll sleeps at most
800 ms; a timeout exit emits exactly the timeout error update followed by
`done` (an abort exit the abort/timeout message); and a successful run never
runs past the deadline. -/
theorem C4_paiza_timeout_budget (env : PaizaEnv) (t0 : Int) (opt : Option Int) :
    ((paizaRun env t0 opt).deadline = t0 + (paizaRun env t0 opt).timeoutMs ∧
      1 ≤ (paizaRun env t0 opt).timeoutMs) ∧
    (∀ c ∈ (paizaRun env t0 opt).calls,
      0 ≤ c.budget ∧
      c.budget = max 0 ((paizaRun env t0 opt).deadline - c.issuedAt) ∧
      c.issuedAt ≤ (paizaRun env t0 opt).deadline) ∧
    (∀ s ∈ (paizaRun env t0 opt).sleeps, s ≤ 800) ∧
    ((paizaRun env t0 opt).exit = PaizaExit.timedOut →
      (paizaRun env t0 opt).updates =
        [Upd.error (paizaTimeoutMsg (paizaRun env t0 opt).timeoutMs), Upd.done]) ∧
    (((paizaRun env t0 opt).exit = PaizaExit.createAborted ∨
        (paizaRun env t0 opt).exit = PaizaExit.pollAborted ∨
        (paizaRun env t0 opt).exit = PaizaExit.detailsAborted) →
      (paizaRun env t0 opt).updates = [Upd.error (paizaAbortMsg opt), Upd.done]) ∧
    ((paizaRun env t0 opt).exit = PaizaExit.success →
      (paizaRun env t0 opt).finalNow ≤ (paizaRun env t0 opt).deadline) := by
  have htm : (1 : Int) ≤ max 1 (opt.getD 20000) := by omega
  have hdl : t0 ≤ t0 + max 1 (opt.getD 20000) := by omega
  unfold paizaRun
  dsimp only
  split
  · -- create aborted
    refine ⟨⟨rfl, htm⟩, ?_, ?_, ?_, ?_, ?_⟩
    · intro c hc
      simp at hc
      subst hc
      exact ⟨by dsimp only; try omega, by dsimp only; try omega, by dsimp only; try omega⟩
    · intro s hs
      simp at hs
    · intro h; simp at h
    · intro _; rfl
    · intro h; simp at h
  · split
    · -- create HTTP error
      refine ⟨⟨rfl, htm⟩, ?_, ?_, ?_, ?_, ?_⟩
      · intro c hc
        simp at hc
        subst hc
        exact ⟨by dsimp only; try omega, by dsimp only; try omega, by dsimp only; try omega⟩
      · intro s hs
        simp at hs
      · intro h; simp at h
      · intro h; rcases h with h | h | h <;> simp at h
      · intro h; simp at h
    · split
      · -- missing id
        refine ⟨⟨rfl, htm⟩, ?_, ?_, ?_, ?_, ?_⟩
        · intro c hc
          simp at hc
          subst hc
          exact ⟨by dsimp only; try omega, by dsimp only; try omega, by dsimp only; try omega⟩
        · intro s hs
          simp at hs
        · intro h; simp at h
        · intro h; rcases h with h | h | h <;> simp at h
        · intro h; simp at h
      · -- create call succeeded: its settle time is within the deadline
        rename_i hab hok hid
        have hfs0 : (fetchStep (t0 + max 1 (opt.getD 20000)) t0 env.createResp).1 =
            t0 + min ((env.createResp.delay : Int))
              (max 0 ((t0 + max 1 (opt.getD 20000)) - t0)) := rfl
        have hdpos : (0 : Int) ≤ ((env.createResp.delay : Int)) := Int.ofNat_nonneg _
        have habf : (fetchStep (t0 + max 1 (opt.getD 20000)) t0 env.createResp).2 = false := by
          simpa using hab
        have hnotlate : ¬ (t0 + max 1 (opt.getD 20000) < t0 + (env.createResp.delay : Int)) := by
          have := habf
          unfold fetchStep at this
          simp at this
          exact fun hcon => by
            rcases this with ⟨_, h2⟩
            omega
        have hnow1 : (fetchStep (t0 + max 1 (opt.getD 20000)) t0 env.createResp).1 ≤
            t0 + max 1 (opt.getD 20000) := by
          rw [hfs0]
          omega
        have hrec := pollLoop_spec env (t0 + max 1 (opt.getD 20000))
          ((t0 + max 1 (opt.getD 20000) - (fetchStep (t0 + max 1 (opt.getD 20000)) t0 env.createResp).1).toNat)
          (jsOr env.createStatus "running")
          ((fetchStep (t0 + max 1 (opt.getD 20000)) t0 env.createResp).1) 0 hnow1
        split <;> rename_i hmatch <;> rw [hmatch] at hrec
        · -- poll loop timed out
          refine ⟨⟨rfl, htm⟩, ?_, ?_, ?_, ?_, ?_⟩
          · intro c hc
            simp at hc
            rcases hc with hc | hc
            · subst hc
              exact ⟨by dsimp only; try omega, by dsimp only; try omega, by dsimp only; try omega⟩
            · exact hrec.1 c (by simpa [LoopOut.callsOf] using hc)
          · intro s hs
            exact (hrec.2.1 s (by simpa [LoopOut.sleepsOf] using hs)).2
          · intro _; rfl
          · intro h; rcases h with h | h | h <;> simp at h
          · intro h; simp at h
        · -- poll fetch aborted
          refine ⟨⟨rfl, htm⟩, ?_, ?_, ?_, ?_, ?_⟩
          · intro c hc
            simp at hc
            rcases hc with hc | hc
            · subst hc
              exact ⟨by dsimp only; try omega, by dsimp only; try omega, by dsimp only; try omega⟩
            · exact hrec.1 c (by simpa [LoopOut.callsOf] using hc)
          · intro s hs
            exact (hrec.2.1 s (by simpa [LoopOut.sleepsOf] using hs)).2
          · intro h; simp at h
          · intro _; rfl
          · intro h; simp at h
        · -- poll HTTP error
          refine ⟨⟨rfl, htm⟩, ?_, ?_, ?_, ?_, ?_⟩
          · intro c hc
            simp at hc
            rcases hc with hc | hc
            · subst hc
              exact ⟨by dsimp only; try omega, by dsimp only; try omega, by dsimp only; try omega⟩
            · exact hrec.1 c (by simpa [LoopOut.callsOf] using hc)
          · intro s hs
            exact (hrec.2.1 s (by simpa [LoopOut.sleepsOf] using hs)).2
          · intro h; simp at h
          · intro h; rcases h with h | h | h <;> simp at h
          · intro h; simp at h
        · -- poll loop completed
          rename_i cs ss now2
          have hcs : ∀ c ∈ cs, 0 ≤ c.budget ∧
              c.budget = max 0 ((t0 + max 1 (opt.getD 20000)) - c.issuedAt) ∧
              c.issuedAt ≤ t0 + max 1 (opt.getD 20000) := by
            intro c hc
            exact hrec.1 c (by simpa [LoopOut.callsOf] using hc)
          have hss : ∀ s ∈ ss, s ≤ 800 := by
            intro s hs
            exact (hrec.2.1 s (by simpa [LoopOut.sleepsOf] using hs)).2
          have hnow2 : now2 ≤ t0 + max 1 (opt.getD 20000) := by
            simpa [LoopOut.nowOf] using hrec.2.2
          split
          · -- timed out after the loop
            refine ⟨⟨rfl, htm⟩, ?_, ?_, ?_, ?_, ?_⟩
            · intro c hc
              simp at hc
              rcases hc with hc | hc
              · subst hc
                exact ⟨by dsimp only; try omega, by dsimp only; try omega, by dsimp only; try omega⟩
              · exact hcs c hc
            · exact hss
            · intro _; rfl
            · intro h; rcases h with h | h | h <;> simp at h
            · intro h; simp at h
          · -- details fetch
            rename_i hnl
            have hn2lt : now2 < t0 + max 1 (opt.getD 20000) := by
              simp at hnl
              omega
            have hfs2 : (fetchStep (t0 + max 1 (opt.getD 20000)) now2 env.detailsResp).1 =
                now2 + min ((env.detailsResp.delay : Int))
                  (max 0 ((t0 + max 1 (opt.getD 20000)) - now2)) := rfl
            have hd2pos : (0 : Int) ≤ ((env.detailsResp.delay : Int)) := Int.ofNat_nonneg _
            split
            · -- details aborted
              refine ⟨⟨rfl, htm⟩, ?_, ?_, ?_, ?_, ?_⟩
              · intro c hc
                simp at hc
                rcases hc with hc | hc | hc
                · subst hc
                  exact ⟨by dsimp only; try omega, by dsimp only; try omega, by dsimp only; try omega⟩
                · exact hcs c hc
                · subst hc
                  exact ⟨by dsimp only; try omega, by dsimp only; try omega, by dsimp only; try omega⟩
              · exact hss
              · intro h; simp at h
              · intro _; rfl
              · intro h; simp at h
            · split
              · -- details HTTP error
                refine ⟨⟨rfl, htm⟩, ?_, ?_, ?_, ?_, ?_⟩
                · intro c hc
                  simp at hc
                  rcases hc with hc | hc | hc
                  · subst hc
                    exact ⟨by dsimp only; try omega, by dsimp only; try omega, by dsimp only; try omega⟩
                  · exact hcs c hc
                  · subst hc
                    exact ⟨by dsimp only; try omega, by dsimp only; try omega, by dsimp only; try omega⟩
                · exact hss
                · intro h; simp at h
                · intro h; rcases h with h | h | h <;> simp at h
                · intro h; simp at h
              · -- success
                rename_i hab2 hok2
                have hab2f : (fetchStep (t0 + max 1 (opt.getD 20000)) now2 env.detailsResp).2 = false := by
                  simpa using hab2
                have hnotlate2 : ¬ (t0 + max 1 (opt.getD 20000) <
                    now2 + (env.detailsResp.delay : Int)) := by
                  have := hab2f
                  unfold fetchStep at this
                  simp at this
                  exact fun hcon => by
                    rcases this with ⟨_, h2⟩
                    omega
                refine ⟨⟨rfl, htm⟩, ?_, ?_, ?_, ?_, ?_⟩
                · intro c hc
                  simp at hc
                  rcases hc with hc | hc | hc
                  · subst hc
                    exact ⟨by dsimp only; try omega, by dsimp only; try omega, by dsimp only; try omega⟩
                  · exact hcs c hc
                  · subst hc
                    exact ⟨by dsimp only; try omega, by dsimp only; try omega, by dsimp only; try omega⟩
                · exact hss
                · intro h; simp at h
                · intro h; rcases h with h | h | h <;> simp at h
                · intro _
                  dsimp only
                  omega

/-- A Paiza environment that answers instantly and completes at once. -/
def envImmediateDone : PaizaEnv where
  createResp := ⟨0, true, 200, "OK", ""⟩
  createId := some "sid"
  createStatus := some "completed"
  statusResp := fun _ => ⟨0, true, 200, "OK", ""⟩
  statusVal := fun _ => some "completed"
  detailsResp := ⟨0, true, 200, "OK", ""⟩
  buildStdoutF := none
  buildStderrF := none
  stdoutF := some "7 3\n"
  stderrF := none

/-- C4 witness: the budget facts at the create call of a concrete run, and
the within-deadline fact at its successful exit. -/
theorem C4_paiza_timeout_budget_witness :
    (0 ≤ (⟨0, 5⟩ : NetCall).budget ∧
      (⟨0, 5⟩ : NetCall).budget =
        max 0 ((paizaRun envImmediateDone 0 (some 5)).deadline -
          (⟨0, 5⟩ : NetCall).issuedAt) ∧
      (⟨0, 5⟩ : NetCall).issuedAt ≤ (paizaRun envImmediateDone 0 (some 5)).deadline) ∧
    (paizaRun envImmediateDone 0 (some 5)).finalNow ≤
      (paizaRun envImmediateDone 0 (some 5)).deadline :=
  ⟨(C4_paiza_timeout_budget envImmediateDone 0 (some 5)).2.1 ⟨0, 5⟩ (by decide),
    (C4_paiza_timeout_budget envImmediateDone 0 (some 5)).2.2.2.2.2 (by decide)⟩

/-! ## C9 -/

/-- Keeping the matching lines and taking the last is the same as searching
the reversed list for the first match. -/
theorem filter_getLast?_eq_find?_reverse (p : List Char → Bool) (l : List (List Char)) :
    (l.filter p).getLast? = l.reverse.find? p := by
  induction l using List.reverseRecOn with
  | nil => rfl
  | append_singleton l a ih =>
    rw [List.filter_append, List.reverse_append]
    simp only [List.filter_cons, List.filter_nil, List.reverse_cons,
      List.reverse_nil, List.nil_append, List.find?]
    by_cases hp : p a
    · simp [hp, List.getLast?_concat]
    · simp [hp, ih]

/-- A non-noise line is non-blank after trimming. -/
theorem trim_nonempty_of_not_noise {raw : List Char}
    (h : isNoiseLine raw = false) : (trimChars raw).isEmpty = false := by
  unfold isNoiseLine at h
  simp only [Bool.or_eq_false_iff] at h
  exact h.1.1.1.1

/-- The fallback line described by the claim: the final line of the raw error
that is not a traceback header, a File/line entry, a JS frame, a caret line
or blank — trimmed; with the source's own fallback
(`lines[lines.length-1]?.trim() || 'Error'`) when every line is noise. -/
def specFinalNonNoiseLine (msg : String) : String :=
  let lines := splitLines (stripPyHead msg.data)
  match (lines.filter fun raw => !isNoiseLine raw).getLast? with
  | some raw => String.mk (trimChars raw)
  | none =>
    let lt := trimChars (lines.getLast?.getD [])
    if lt.isEmpty then "Error" else String.mk lt

/-- Annotation with the extracted line number, as the amended claim states:
append ` (line N)` exactly when a line number was extracted and the line does
not already mention one. -/
def specAnnotateLine (lineNo : Option (List Char)) (s : String) : String :=
  match lineNo with
  | some n => if hasLineRef s.data then s else s ++ " (line " ++ String.mk n ++ ")"
  | none => s

/-- The `finalLine` computed by `sanitizePieces` is the claim-side final
non-noise line (including the all-noise fallback). -/
theorem sanitizePieces_finalLine (msg : String) :
    String.mk (sanitizePieces msg).2.1 = specFinalNonNoiseLine msg := by
  unfold sanitizePieces specFinalNonNoiseLine finalLineLoop
  dsimp only
  rw [filter_getLast?_eq_find?_reverse]
  cases hfind : (splitLines (stripPyHead msg.data)).reverse.find?
      (fun raw => !isNoiseLine raw) with
  | none =>
    show String.mk
        (if (trimChars ((splitLines (stripPyHead msg.data)).getLast?.getD [])).isEmpty then
          "Error".data
        else trimChars ((splitLines (stripPyHead msg.data)).getLast?.getD [])) = _
    split
    · rfl
    · rfl
  | some raw =>
    have hnn : isNoiseLine raw = false := by
      have := List.find?_some hfind
      simpa using this
    have hne : (trimChars raw).isEmpty = false := trim_nonempty_of_not_noise hnn
    dsimp only
    rw [hne]
    rfl

/-- C9 counterexample: for the raw error
`File "<exec>", line 3\nFoo: bar` no beginner-friendly pattern matches, the
final non-noise line is `Foo: bar`, yet the sanitizer returns
`Foo: bar (line 3)` — the extracted line number is appended, so the result is
not the stripped final line the claim describes. -/
theorem C9_fallback_line_counterexample :
    sanitizeFriendlyPart "File \"<exec>\", line 3\nFoo: bar" = none ∧
    specFinalNonNoiseLine "File \"<exec>\", line 3\nFoo: bar" = "Foo: bar" ∧
    sanitizePythonError "File \"<exec>\", line 3\nFoo: bar" = "Foo: bar (line 3)" ∧
    (("Foo: bar (line 3)" : String) == "Foo: bar") = false := by
  refine ⟨by decide, by decide, by decide, by decide⟩

/-- C9 (amended): the error normalizer is total by construction over every
input string; when no beginner-friendly pattern matches it returns the final
non-noise line of the raw error (traceback headers, File/line entries, JS
frames, caret lines and blanks skipped), annotated with ` (line N)` when a
line number was extracted from the trace and the line does not already
mention one. -/
theorem C9_sanitizer_fallback_amended (msg : String)
    (h : sanitizeFriendlyPart msg = none) :
    sanitizePythonError msg =
      specAnnotateLine (sanitizePieces msg).1 (specFinalNonNoiseLine msg) := by
  rw [← sanitizePieces_finalLine msg]
  unfold sanitizeFriendlyPart at h
  unfold sanitizePythonError
  rcases hp : sanitizePieces msg with ⟨lineNo, finalLine, t, d⟩
  rw [hp] at h
  dsimp only at h ⊢
  rw [h]
  cases lineNo with
  | none => rfl
  | some n =>
    unfold specAnnotateLine
    by_cases hr : hasLineRef finalLine
    · have hr2 : hasLineRef (String.mk finalLine).data = true := hr
      simp [hr, hr2]
    · have hr2 : hasLineRef (String.mk finalLine).data = false := by
        simpa using hr
      simp only [hr2, Bool.false_eq_true, if_neg, Option.isSome_some, Bool.not_false,
        Bool.and_true, Option.getD_some]
      simp [hr]

/-- C9 witness: the amended fallback equation at a concrete non-matching
error text. -/
theorem C9_sanitizer_fallback_amended_witness :
    sanitizePythonError "File \"x\", line 7\nWeird: stuff" =
      specAnnotateLine (sanitizePieces "File \"x\", line 7\nWeird: stuff").1
        (specFinalNonNoiseLine "File \"x\", line 7\nWeird: stuff") :=
  C9_sanitizer_fallback_amended "File \"x\", line 7\nWeird: stuff" (by decide)

/-- C10 witness: the unchanged / append-one behavior at concrete strings. -/
theorem C10_trailing_newline_witness :
    ensureTrailingNewline "7 3\n" = "7 3\n" ∧
    ensureTrailingNewline "7 3" = "7 3" ++ "\n" :=
  ⟨C10_trailing_newline.1 "7 3\n" (by decide),
    C10_trailing_newline.2.1 "7 3" (by decide)⟩
